import Mathlib

/-!
Verification development for the RAG demo application
(document ingestion / chunk-to-citation pipeline).

Shallow embedding of `src/api/document_processor.py`,
`src/api/search_index_manager.py`, `src/api/blob_storage_manager.py` and
`src/api/routes.py`.  Python strings are modelled as Lean `String`
(code-point lists via `.data` where index arithmetic matters; Python
`len` counts code points exactly as `String.length` does), Python dicts
keyed by character offset as functions `Nat → Option Nat`, and fallible
calls to external services as explicit `Except` / `Option` parameters.
-/

namespace RagDemo

/-! ## Generic Python string helpers -/

/-- Python `text.find(sub, start)` restricted to non-negative `start`:
the least index `i` with `start ≤ i ≤ text.length` at which `sub` occurs,
`none` when there is no occurrence (Python returns `-1` there). -/
def pyFind (text sub : List Char) (start : Nat) : Option Nat :=
  (List.range (text.length + 1)).find? (fun i => decide (start ≤ i) && sub.isPrefixOf (text.drop i))

/-- Python `range(0, stop, step)` for `step ≥ 1`: the list `[0, step, 2*step, ...)`
of all multiples of `step` below `stop`. -/
def pyRange0 (stop step : Nat) : List Nat :=
  (List.range ((stop + step - 1) / step)).map (· * step)

/-- Python `s.strip()` on a code-point list: remove leading and trailing
whitespace (`Char.isWhitespace` covers space, tab, CR and LF — the common
core of Python's whitespace set). -/
def pyStrip (l : List Char) : List Char :=
  ((l.dropWhile Char.isWhitespace).reverse.dropWhile Char.isWhitespace).reverse

/-- Python `s.split(sep)` for a single-character separator (no maxsplit):
always returns at least one (possibly empty) part. -/
def pySplitAll (sep : Char) : List Char → List (List Char)
  | [] => [[]]
  | c :: rest =>
    if c = sep then [] :: pySplitAll sep rest
    else
      match pySplitAll sep rest with
      | [] => [[c]]
      | p :: ps => (c :: p) :: ps

/-- Index of the last occurrence of `c` in the list (Python `s.rfind(c)`),
`none` when absent. -/
def rfindIdx (c : Char) : List Char → Option Nat
  | [] => none
  | x :: xs =>
    match rfindIdx c xs with
    | some i => some (i + 1)
    | none => if x = c then some 0 else none

/-- Split a list at the first occurrence of `sep`: `some (before, after)`,
or `none` when `sep` does not occur. -/
def splitFirst (sep : Char) : List Char → Option (List Char × List Char)
  | [] => none
  | c :: rest =>
    if c = sep then some ([], rest)
    else
      match splitFirst sep rest with
      | none => none
      | some (a, b) => some (c :: a, b)

/-- Python `s.split(sep, 2)` (at most two splits, from the left). -/
def pySplitMax2 (sep : Char) (s : List Char) : List (List Char) :=
  match splitFirst sep s with
  | none => [s]
  | some (a, r) =>
    match splitFirst sep r with
    | none => [a, r]
    | some (b, r2) => [a, b, r2]

/-! ## DocumentProcessor (src/api/document_processor.py) -/

/-- Result element of `DocumentProcessor.chunk_text`: a Python dict
`{'text': ..., 'page_number': ...}`. -/
structure PyChunk where
  text : String
  page_number : Option Nat
  deriving DecidableEq, Repr

/-- The set literal `DocumentProcessor.SUPPORTED_EXTENSIONS`
(`{'.pdf', '.docx', '.txt', '.md'}`), in source order. -/
def SUPPORTED_EXTENSIONS : List String := [".pdf", ".docx", ".txt", ".md"]

/-- The `pathlib.PurePath.suffix` computation on a filename:
take the final path component, then the segment from the last dot,
provided that dot is neither the first character nor the last one. -/
def pathSuffix (filename : String) : String :=
  let nm := (pySplitAll '/' filename.data).getLastD []
  match rfindIdx '.' nm with
  | some i => if 0 < i ∧ i < nm.length - 1 then String.mk (nm.drop i) else ""
  | none => ""

/-- `DocumentProcessor.is_supported`: the lowercased filename extension is
in the supported set. -/
def is_supported (filename : String) : Bool :=
  SUPPORTED_EXTENSIONS.contains (String.mk ((pathSuffix filename).data.map Char.toLower))

/-- Loop body of `DocumentProcessor._extract_from_pdf`, with the per-page
texts returned by `page.extract_text()` supplied as a list.  Carries the
running 1-based page counter (`enumerate(reader.pages, 1)`) and the running
character position `current_pos`; returns the retained `text_parts` and the
`char_to_page` dict (as a function; entries written for disjoint offset
ranges, so write order is immaterial). -/
def pdfWorker : List String → Nat → Nat → List String × (Nat → Option Nat)
  | [], _, _ => ([], fun _ => none)
  | t :: rest, pageNum, pos =>
    if pyStrip t.data = [] then pdfWorker rest (pageNum + 1) pos
    else
      let r := pdfWorker rest (pageNum + 1) (pos + t.length + 2)
      (t :: r.1, fun i => if pos ≤ i ∧ i < pos + t.length then some pageNum else r.2 i)

/-- `DocumentProcessor._extract_from_pdf`: join the retained page texts with
the two-character separator and return them with the offset-to-page map. -/
def extract_from_pdf (pages : List String) : String × (Nat → Option Nat) :=
  let r := pdfWorker pages 1 0
  (String.intercalate "\n\n" r.1, r.2)

/-- Start offset, in the joined full text, of the page at 0-based index `j`
of the per-page text list: the sum of `length + 2` over the retained pages
before it. -/
def spanStart : List String → Nat → Nat
  | _, 0 => 0
  | [], _ + 1 => 0
  | t :: rest, j + 1 => (if pyStrip t.data = [] then 0 else t.length + 2) + spanStart rest j

/-- Main loop of `DocumentProcessor.chunk_text`, iterating over the start
indices `range(0, len(sentences), sentences_per_chunk)` with the running
search position `current_pos`.  On a missed search Python's `find` returns
`-1`; `char_to_page.get(-1)` is `None` (the dict is keyed by non-negative
offsets) and `current_pos` becomes `-1 + len(chunk_text)`, i.e.
`chunk_text.length - 1` (the chunk is non-empty there since its trimmed
text is non-empty). -/
def chunkLoop (text : String) (charToPage : Nat → Option Nat) (sentences : List String)
    (spc : Nat) : List Nat → Nat → List PyChunk
  | [], _ => []
  | i :: is, pos =>
    let ct := String.intercalate " " ((sentences.drop i).take spc)
    if pyStrip ct.data = [] then chunkLoop text charToPage sentences spc is pos
    else
      match pyFind text.data ct.data pos with
      | some s => ⟨ct, charToPage s⟩ :: chunkLoop text charToPage sentences spc is (s + ct.length)
      | none => ⟨ct, none⟩ :: chunkLoop text charToPage sentences spc is (ct.length - 1)

/-- Lines of the fallback chunker: `[line.strip() for line in text.split('\n') if line.strip()]`. -/
def fallbackLines (text : String) : List String :=
  ((pySplitAll '\n' text.data).map (fun l => String.mk (pyStrip l))).filter (fun l => !(l == ""))

/-- Fallback of `DocumentProcessor.chunk_text`: non-empty trimmed lines in
runs of 10 joined by newline, each with `page_number = None`. -/
def fallbackChunks (text : String) : List PyChunk :=
  (pyRange0 (fallbackLines text).length 10).map (fun i =>
    { text := String.intercalate "\n" (((fallbackLines text).drop i).take 10)
      page_number := none })

/-- `DocumentProcessor.chunk_text`.  The sentence tokenizer (`nltk`) is an
external collaborator: its outcome is supplied as `tok`; an `Except.error`
models any failure of the import / download / `sent_tokenize` call, which
the source converts into the line-based fallback.  The main loop itself
performs no fallible operation. -/
def chunk_text (tok : Except Unit (List String)) (text : String)
    (charToPage : Nat → Option Nat) (spc : Nat) : List PyChunk :=
  match tok with
  | .ok sentences => chunkLoop text charToPage sentences spc (pyRange0 sentences.length spc) 0
  | .error _ => fallbackChunks text

/-- Reference grouping in runs of ten, by structural recursion (used to
state the shape of the fallback chunker). -/
def groupsOfTen : List String → List (List String)
  | [] => []
  | x :: xs => (x :: xs.take 9) :: groupsOfTen (xs.drop 9)
termination_by l => l.length
decreasing_by
  simp only [List.length_drop, List.length_cons]
  omega

/-! ## SearchIndexManager (src/api/search_index_manager.py) -/

/-- One record returned by the vector search, with the selected fields
(`token`, `source_document`, `source_url`, `chunk_index`, `page_number`);
a field absent from the result dict is `none`. -/
structure SearchResult where
  token : String
  source_document : Option String
  source_url : Option String
  chunk_index : Option Int
  page_number : Option Int
  deriving DecidableEq, Repr

/-- The `source_info` dict built in `SearchIndexManager.search` for one
result (`document`, `url`, `chunk_index`, `page_number`). -/
structure SourceInfo where
  document : String
  url : String
  chunk_index : Int
  page_number : Option Int
  deriving DecidableEq, Repr

/-- The guard `'source_document' in result and result['source_document']`. -/
def sourceCond (r : SearchResult) : Bool :=
  !(r.source_document.getD "" == "")

/-- The `source_info` record built from a search result via
`result.get(field, default)`. -/
def mkSourceInfo (r : SearchResult) : SourceInfo :=
  { document := r.source_document.getD ""
    url := r.source_url.getD ""
    chunk_index := r.chunk_index.getD 0
    page_number := r.page_number }

/-- Accumulation loop over search results in `SearchIndexManager.search`:
for each result passing the guard, append its `source_info` unless an
identical record is already in the list. -/
def collectSources : List SearchResult → List SourceInfo → List SourceInfo
  | [], acc => acc
  | r :: rest, acc =>
    if sourceCond r then
      let s := mkSourceInfo r
      if s ∈ acc then collectSources rest acc else collectSources rest (acc ++ [s])
    else collectSources rest acc

/-- The `sources` list produced by `SearchIndexManager.search` from the
retrieval results. -/
def searchSources (results : List SearchResult) : List SourceInfo :=
  collectSources results []

/-- The `context` string produced by `SearchIndexManager.search`. -/
def searchContext (results : List SearchResult) : String :=
  String.intercalate "\n------\n" (results.map (fun r => r.token))

/-- Candidate citations before deduplication: the results passing the
guard, mapped to their `source_info` records, in result order. -/
def sourceCandidates (results : List SearchResult) : List SourceInfo :=
  (results.filter sourceCond).map mkSourceInfo

/-- First-occurrence deduplication relative to an already-seen list:
keeps each element the first time it appears and drops later duplicates. -/
def keepFirstFrom {α : Type} [DecidableEq α] (seen : List α) : List α → List α
  | [] => []
  | s :: rest =>
    if s ∈ seen then keepFirstFrom seen rest
    else s :: keepFirstFrom (seen ++ [s]) rest

/-- First-occurrence deduplication of a list. -/
def keepFirst {α : Type} [DecidableEq α] (l : List α) : List α :=
  keepFirstFrom [] l

/-- A chat message (`{role, content}`) of the request body. -/
structure ChatMessage where
  role : String
  content : String
  deriving DecidableEq, Repr

/-- The chat request: an ordered list of messages. -/
structure ChatRequest where
  messages : List ChatMessage
  deriving DecidableEq, Repr

/-- The `VectorizedQuery` constructed in `SearchIndexManager.search`,
generic over the embedding-vector type. -/
structure PyVectorizedQuery (E : Type) where
  vector : E
  k_nearest_neighbors : Nat
  fields : String
  deriving DecidableEq, Repr

/-- The text embedded by `SearchIndexManager.search`:
`message.messages[-1].content` (`none` models the `IndexError` raised by
`[-1]` on an empty message list). -/
def searchEmbedInput (req : ChatRequest) : Option String :=
  req.messages.getLast?.map (fun m => m.content)

/-- The vector query issued by `SearchIndexManager.search`, given the
embeddings client as an oracle `embed`. -/
def searchVectorQuery {E : Type} (embed : String → E) (req : ChatRequest) :
    Option (PyVectorizedQuery E) :=
  (searchEmbedInput req).map (fun q =>
    { vector := embed q, k_nearest_neighbors := 5, fields := "embedding" })

/-- The document-name sanitization of `upload_document_chunks`:
`source_document.replace('.', '_').replace(' ', '_')` — a single-character
`str.replace` is exactly a per-character substitution. -/
def sanitizeDocName (s : String) : String :=
  String.mk ((s.data.map (fun c => if c = '.' then '_' else c)).map
    (fun c => if c = ' ' then '_' else c))

/-- One record submitted to the index by `upload_document_chunks`. -/
structure IndexedDoc where
  embedId : String
  token : String
  embedding : List Int
  source_document : String
  source_url : String
  chunk_index : Nat
  page_number : Option Nat
  deriving DecidableEq, Repr

/-- `SearchIndexManager.upload_document_chunks`: the batch of documents
built from the chunks (the embeddings client supplied as oracle `embed`);
the batch is submitted in one call. -/
def upload_document_chunks (embed : String → List Int) (chunks : List PyChunk)
    (source_document source_url : String) : List IndexedDoc :=
  chunks.enum.map (fun ic =>
    { embedId := sanitizeDocName source_document ++ "_" ++ toString ic.1
      token := ic.2.text
      embedding := embed ic.2.text
      source_document := source_document
      source_url := source_url
      chunk_index := ic.1
      page_number := ic.2.page_number })

/-! ## BlobStorageManager (src/api/blob_storage_manager.py) -/

/-- Timestamp string `strftime('%Y%m%d_%H%M%S')`: an 8-character date part
and a 6-character time part (both all digits, hence underscore-free)
joined by one underscore. -/
def timestampOf (datePart timePart : List Char) : List Char :=
  datePart ++ '_' :: timePart

/-- Blob naming in `upload_document`: `f"{timestamp}_{filename}"`. -/
def makeBlobName (timestamp filename : List Char) : List Char :=
  timestamp ++ '_' :: filename

/-- Original-filename extraction in `generate_sas_url`: when the blob name
contains an underscore and `split('_', 2)` yields at least three parts,
take the third part, else keep the blob name. -/
def extractOriginalFilename (blob : List Char) : List Char :=
  if '_' ∈ blob then
    let parts := pySplitMax2 '_' blob
    if parts.length ≥ 3 then parts.getD 2 [] else blob
  else blob

/-! ## Chat and upload handlers (src/api/routes.py) -/

/-- A Python exception raised inside `response_stream`, as far as the
stream's error rendering inspects it: `msg` is `str(e)`; `contentFilter`
is `some entries` exactly when the content-safety detection path succeeds
(`'(content_filter)' in e.args[0]` and the response JSON parses), carrying
the `content_filter_result` items as (category, filtered, optional
severity); any failure inside that nested `try` leaves the error
unprocessed, modelled by `none`. -/
structure PyError where
  msg : String
  contentFilter : Option (List (String × Bool × Option String))
  deriving DecidableEq, Repr

/-- Error text built from a successfully parsed content-filter result:
the filtered categories (with severity when present), comma-joined. -/
def contentFilterText (entries : List (String × Bool × Option String)) : String :=
  let errs := (entries.filter (fun e => e.2.1)).map (fun e =>
    match e.2.2 with
    | some sev => e.1 ++ ", severity: " ++ sev
    | none => e.1)
  "We have found the next safety issues in the response: " ++ String.intercalate ", " errs

/-- The `response` string yielded by the `except` branch of the stream. -/
def errorResponseText (e : PyError) : String :=
  match e.contentFilter with
  | some entries => contentFilterText entries
  | none => e.msg

/-- One choice of a streamed chat-completion event (`delta.content`). -/
structure ChatChoice where
  content : Option String
  deriving DecidableEq, Repr

/-- One streamed chat-completion event (`event.choices`). -/
structure ChatStreamEvent where
  choices : List ChatChoice
  deriving DecidableEq, Repr

/-- Outcome of the model-streaming phase: the events the upstream iterator
produced, and `some e` when the `complete` call or the iteration raised
after producing them. -/
structure GenOutcome where
  events : List ChatStreamEvent
  failure : Option PyError
  deriving Repr

/-- The delta contents actually yielded as `message` events: first choice
present and its `delta.content` truthy (non-`None`, non-empty). -/
def deltaContents (events : List ChatStreamEvent) : List String :=
  events.filterMap (fun ev =>
    match ev.choices with
    | [] => none
    | c :: _ =>
      match c.content with
      | some s => if s = "" then none else some s
      | none => none)

/-- An SSE event serialized by the `/chat` handler.  The success-path
`completed_message` carries a `sources` key (`some`), the error-path one
does not (`none`). -/
inductive SSEEvent where
  | message (content : String)
  | completedMessage (content : String) (sources : Option (List SourceInfo))
  | streamEnd
  deriving DecidableEq, Repr

/-- Blob-name extraction from a source URL in the signing loop:
`url.split('/')[-1].split('?')[0]`. -/
def blobNameOfUrl (url : String) : String :=
  String.mk ((pySplitAll '?' ((pySplitAll '/' url.data).getLastD [])).headD [])

/-- Page-anchor fragment appended to a signed URL when
`source.get('page_number') is not None`. -/
def pageAnchor : Option Int → String
  | some p => "#page=" ++ toString p
  | none => ""

/-- The SAS-signing loop of `response_stream` (routes.py lines 122-139).
`sign` is the blob storage collaborator: `some url` a successful
`generate_sas_url`, `none` an exception from it (the only fallible call in
the loop, and it is wrapped in `try/except`).  A source with a falsy
`url` is left untouched; on signing success the source's `url` is
replaced by the signed URL plus the page anchor; on failure the source is
left unchanged (the error is only logged). -/
def signSources (sign : String → Option String) (sources : List SourceInfo) :
    List SourceInfo :=
  sources.map (fun s =>
    if s.url = "" then s
    else
      match sign (blobNameOfUrl s.url) with
      | some sasUrl => { s with url := sasUrl ++ pageAnchor s.page_number }
      | none => s)

/-- The `response_stream` async generator of the `/chat` handler, as the
sequence of SSE events it yields.  `searchPhase` is the retrieval
collaborator: `none` when no search index manager is configured, otherwise
the outcome of `search_index_manager.search` — that call happens OUTSIDE
the handler's `try` block, so `Except.error` makes the whole generator
raise (modelled by returning `Except.error`).  `sign` is the blob storage
manager (absent when `none`).  `gen` is the model-streaming phase, whose
failures ARE caught and rendered as an error `completed_message`.  The
final `stream_end` is yielded after the `try/except`. -/
def response_stream
    (searchPhase : Option (Except PyError (String × List SourceInfo)))
    (sign : Option (String → Option String))
    (gen : GenOutcome) : Except PyError (List SSEEvent) :=
  match searchPhase with
  | some (.error e) => .error e
  | _ =>
    let sources :=
      match searchPhase with
      | some (.ok (_, srcs)) =>
        match sign with
        | some sg => if srcs = [] then srcs else signSources sg srcs
        | none => srcs
      | _ => []
    let msgs := (deltaContents gen.events).map SSEEvent.message
    let body :=
      match gen.failure with
      | none =>
        msgs ++ [SSEEvent.completedMessage (String.join (deltaContents gen.events)) (some sources)]
      | some e => msgs ++ [SSEEvent.completedMessage (errorResponseText e) none]
    .ok (body ++ [SSEEvent.streamEnd])

/-- A Python exception in the upload path: the handler's `except ValueError`
branch answers 400 with `str(e)`, the generic `except Exception` branch 500
with a wrapped message. -/
inductive PyExn where
  | valueError (msg : String)
  | otherError (msg : String)
  deriving DecidableEq, Repr

/-- HTTP status chosen by the exception handlers of `/upload`. -/
def statusOfExn : PyExn → Nat
  | .valueError _ => 400
  | .otherError _ => 500

/-- Error body chosen by the exception handlers of `/upload`. -/
def msgOfExn : PyExn → String
  | .valueError m => m
  | .otherError m => "Failed to process document: " ++ m

/-- An externally visible side effect of the upload handler. -/
inductive UploadEffect where
  | blobUpload
  | indexWrite
  deriving DecidableEq, Repr

/-- Response of the `/upload` handler together with the external calls it
made (in order).  An effect is recorded when the corresponding call is
issued, whether or not it succeeds. -/
structure UploadOutcome where
  status : Nat
  error : Option String
  effects : List UploadEffect
  deriving DecidableEq, Repr

/-- The `/upload` handler `upload_document` (routes.py lines 206-300).
External collaborators are supplied as outcomes: `extract` for
`DocumentProcessor.extract_text` (which raises `ValueError` on extraction
failure), `tok` for the sentence tokenizer used by `chunk_text`,
`blobUpload` for `blob_storage_manager.upload_document`, `indexUpload` for
`search_index_manager.upload_document_chunks`.  `ragEnabled` is the
presence of both managers. -/
def upload_document
    (ragEnabled : Bool)
    (filename : String)
    (extract : Except PyExn (String × (Nat → Option Nat)))
    (tok : Except Unit (List String))
    (blobUpload : Except PyExn String)
    (indexUpload : Except PyExn Unit) : UploadOutcome :=
  if !ragEnabled then
    ⟨400, some "RAG functionality is not enabled", []⟩
  else if !is_supported filename then
    ⟨400, some ("Unsupported file format. Supported: " ++
      String.intercalate ", " SUPPORTED_EXTENSIONS), []⟩
  else
    match extract with
    | .error e => ⟨statusOfExn e, some (msgOfExn e), []⟩
    | .ok (text, charToPage) =>
      if pyStrip text.data = [] then
        ⟨400, some "No text could be extracted from the document", []⟩
      else
        match blobUpload with
        | .error e => ⟨statusOfExn e, some (msgOfExn e), [.blobUpload]⟩
        | .ok _ =>
          let chunks := chunk_text tok text charToPage 4
          if chunks = [] then
            ⟨400, some "No chunks could be created from the document", [.blobUpload]⟩
          else
            match indexUpload with
            | .error e => ⟨statusOfExn e, some (msgOfExn e), [.blobUpload, .indexWrite]⟩
            | .ok _ => ⟨200, none, [.blobUpload, .indexWrite]⟩

/-! ## Auxiliary predicates used in theorem statements -/

/-- Monotone offset-to-page map: larger offsets never map to smaller page
numbers (the shape produced by the PDF extractor). -/
def MapMono (m : Nat → Option Nat) : Prop :=
  ∀ i j pi pj, i ≤ j → m i = some pi → m j = some pj → pi ≤ pj

/-- Every emitted chunk's text is found by the forward search of
`chunkLoop` (Python `find` never returns `-1` in the run). -/
def chunkAllFound (text : String) (sentences : List String) (spc : Nat) :
    List Nat → Nat → Bool
  | [], _ => true
  | i :: is, pos =>
    let ct := String.intercalate " " ((sentences.drop i).take spc)
    if pyStrip ct.data = [] then chunkAllFound text sentences spc is pos
    else
      match pyFind text.data ct.data pos with
      | some s => chunkAllFound text sentences spc is (s + ct.length)
      | none => false

/-! ## Theorems -/

theorem splitFirst_append (sep : Char) (a r : List Char) (ha : sep ∉ a) :
    splitFirst sep (a ++ sep :: r) = some (a, r) := by
  induction a with
  | nil => simp [splitFirst]
  | cons c a ih =>
    have hc : c ≠ sep := fun h => ha (h ▸ List.mem_cons_self c a)
    have ha' : sep ∉ a := fun h => ha (List.mem_cons_of_mem c h)
    simp [splitFirst, hc, ih ha']

/-- C8: composing the stored blob name as `{YYYYMMDD_HHMMSS}_{filename}` and
extracting the original filename by splitting on the first two underscores
recovers the filename exactly, including filenames containing underscores;
the timestamp's two digit groups are underscore-free. -/
theorem C8_blob_name_roundtrip (d8 t6 fn : List Char)
    (h8 : '_' ∉ d8) (h6 : '_' ∉ t6) :
    extractOriginalFilename (makeBlobName (timestampOf d8 t6) fn) = fn := by
  have hb : makeBlobName (timestampOf d8 t6) fn = d8 ++ '_' :: (t6 ++ '_' :: fn) := by
    simp [makeBlobName, timestampOf]
  have hmem : '_' ∈ makeBlobName (timestampOf d8 t6) fn := by
    rw [hb]; exact List.mem_append_right _ (List.mem_cons_self _ _)
  have h1 : splitFirst '_' (d8 ++ '_' :: (t6 ++ '_' :: fn)) = some (d8, t6 ++ '_' :: fn) :=
    splitFirst_append '_' d8 _ h8
  have h2 : splitFirst '_' (t6 ++ '_' :: fn) = some (t6, fn) :=
    splitFirst_append '_' t6 _ h6
  rw [extractOriginalFilename, if_pos hmem, hb]
  simp [pySplitMax2, h1, h2]

/-- C8 witness at a concrete timestamp and an underscore-carrying filename. -/
theorem C8_blob_name_roundtrip_witness :
    extractOriginalFilename (makeBlobName (timestampOf "20251112".data "103403".data)
      "my_report_v2.pdf".data) = "my_report_v2.pdf".data :=
  C8_blob_name_roundtrip "20251112".data "103403".data "my_report_v2.pdf".data
    (by decide) (by decide)

/-- C10: the query embedding input, and hence the vector query issued to
the index, is computed from the last message's content alone — two chat
requests with equal final message content yield identical embedding input
and identical vector query, regardless of earlier messages. -/
theorem C10_retrieval_last_message_only {E : Type} (embed : String → E)
    (r1 r2 : ChatRequest) (m1 m2 : ChatMessage)
    (h1 : r1.messages.getLast? = some m1) (h2 : r2.messages.getLast? = some m2)
    (hc : m1.content = m2.content) :
    searchEmbedInput r1 = searchEmbedInput r2
    ∧ searchVectorQuery embed r1 = searchVectorQuery embed r2 := by
  have he : searchEmbedInput r1 = searchEmbedInput r2 := by
    simp [searchEmbedInput, h1, h2, hc]
  exact ⟨he, by simp [searchVectorQuery, he]⟩

/-- C10 witness: a two-message request and a one-message request with the
same final user message produce the same vector query. -/
theorem C10_retrieval_last_message_only_witness :
    searchEmbedInput ⟨[⟨"system", "ignored"⟩, ⟨"user", "hello"⟩]⟩
      = searchEmbedInput ⟨[⟨"user", "hello"⟩]⟩
    ∧ searchVectorQuery (fun s => s.length) ⟨[⟨"system", "ignored"⟩, ⟨"user", "hello"⟩]⟩
      = searchVectorQuery (fun s => s.length) ⟨[⟨"user", "hello"⟩]⟩ :=
  C10_retrieval_last_message_only (fun s => s.length) _ _ ⟨"user", "hello"⟩ ⟨"user", "hello"⟩
    rfl rfl rfl

/-- C7: each indexed chunk's key is the document name with every period and
space replaced by an underscore, followed by an underscore and the 0-based
chunk index; the key list depends only on the document name and the number
of chunks, so re-ingesting a same-named file reproduces the same keys. -/
theorem C7_chunk_keys (embed : String → List Int) (chunks : List PyChunk)
    (doc url : String) :
    (upload_document_chunks embed chunks doc url).map (fun d => d.embedId)
      = (List.range chunks.length).map (fun i => sanitizeDocName doc ++ "_" ++ toString i)
    ∧ sanitizeDocName doc
      = String.mk (doc.data.map (fun c => if c = '.' ∨ c = ' ' then '_' else c))
    ∧ ∀ (embed₂ : String → List Int) (chunks₂ : List PyChunk) (url₂ : String),
        chunks.length = chunks₂.length →
        (upload_document_chunks embed chunks doc url).map (fun d => d.embedId)
          = (upload_document_chunks embed₂ chunks₂ doc url₂).map (fun d => d.embedId) := by
  have key : ∀ (e : String → List Int) (cs : List PyChunk) (u : String),
      (upload_document_chunks e cs doc u).map (fun d => d.embedId)
        = (List.range cs.length).map (fun i => sanitizeDocName doc ++ "_" ++ toString i) := by
    intro e cs u
    rw [upload_document_chunks, List.map_map]
    have : ((fun d => d.embedId) ∘ fun ic : Nat × PyChunk =>
        ({ embedId := sanitizeDocName doc ++ "_" ++ toString ic.1
           token := ic.2.text
           embedding := e ic.2.text
           source_document := doc
           source_url := u
           chunk_index := ic.1
           page_number := ic.2.page_number } : IndexedDoc))
        = (fun i => sanitizeDocName doc ++ "_" ++ toString i) ∘ Prod.fst := rfl
    rw [this, ← List.map_map, List.enum_map_fst]
  refine ⟨key embed chunks url, ?_, ?_⟩
  · rw [sanitizeDocName, List.map_map]
    congr 1
    apply List.map_congr_left
    intro c _
    by_cases h1 : c = '.'
    · simp [h1]
    · by_cases h2 : c = ' ' <;> simp [h1, h2]
  · intro embed₂ chunks₂ url₂ hlen
    rw [key embed chunks url, key embed₂ chunks₂ url₂, hlen]

/-- C7 witness: two ingestions of differently-filled chunk lists of equal
length under the same document name produce identical key lists. -/
theorem C7_chunk_keys_witness :
    (upload_document_chunks (fun _ => []) [⟨"alpha", none⟩] "my doc.pdf" "u1").map
        (fun d => d.embedId)
      = (upload_document_chunks (fun _ => [7]) [⟨"beta", some 3⟩] "my doc.pdf" "u2").map
        (fun d => d.embedId) :=
  (C7_chunk_keys (fun _ => []) [⟨"alpha", none⟩] "my doc.pdf" "u1").2.2
    (fun _ => [7]) [⟨"beta", some 3⟩] "u2" rfl

theorem pyRange0_ten_cons (L : Nat) (h : 1 ≤ L) :
    pyRange0 L 10 = 0 :: (pyRange0 (L - 10) 10).map (· + 10) := by
  have hdiv : (L + 10 - 1) / 10 = (L - 10 + 10 - 1) / 10 + 1 := by omega
  rw [pyRange0, hdiv, List.range_succ_eq_map]
  rw [pyRange0, List.map_cons, List.map_map, List.map_map]
  refine congrArg (0 :: ·) (List.map_congr_left ?_)
  intro a _
  simp [Nat.succ_mul]

theorem fallback_groups (l : List String) :
    (pyRange0 l.length 10).map (fun i => (l.drop i).take 10) = groupsOfTen l := by
  induction l using groupsOfTen.induct with
  | case1 => simp [pyRange0, groupsOfTen]
  | case2 x xs ih =>
    rw [groupsOfTen, pyRange0_ten_cons _ (by simp), List.map_cons, List.map_map]
    refine congrArg₂ (· :: ·) (by simp) ?_
    have harg : ((fun i => ((x :: xs).drop i).take 10) ∘ (· + 10))
        = (fun i => ((xs.drop 9).drop i).take 10) := by
      funext i
      show ((x :: xs).drop (i + 10)).take 10 = ((xs.drop 9).drop i).take 10
      rw [List.drop_drop]
      rw [show i + 10 = (i + 9) + 1 by omega, List.drop_succ_cons, Nat.add_comm i 9]
    have hlen : (x :: xs).length - 10 = (xs.drop 9).length := by
      simp
    rw [harg, hlen, ih]

/-- C9: when sentence tokenization fails for any reason, the fallback
chunker returns the text's non-empty trimmed lines grouped into
consecutive runs of 10 joined by newline, each chunk carrying
`page_number = None`; as a Lean function the fallback is total over all
string inputs, so it cannot raise. -/
theorem C9_fallback_chunker (text : String) (charToPage : Nat → Option Nat) (spc : Nat) :
    chunk_text (.error ()) text charToPage spc
      = (groupsOfTen (fallbackLines text)).map
          (fun g => { text := String.intercalate "\n" g, page_number := none })
    ∧ (chunk_text (.error ()) text charToPage spc).all
        (fun c => c.page_number.isNone) = true := by
  have hshape : chunk_text (.error ()) text charToPage spc
      = (groupsOfTen (fallbackLines text)).map
          (fun g => { text := String.intercalate "\n" g, page_number := none }) := by
    rw [chunk_text, fallbackChunks, ← fallback_groups (fallbackLines text), List.map_map]
    rfl
  refine ⟨hshape, ?_⟩
  rw [hshape]
  simp [List.all_eq_true]

theorem sourceCandidates_cons (r : SearchResult) (rest : List SearchResult) :
    sourceCandidates (r :: rest)
      = if sourceCond r then mkSourceInfo r :: sourceCandidates rest
        else sourceCandidates rest := by
  rw [sourceCandidates, List.filter_cons]
  split <;> simp_all [sourceCandidates]

theorem collectSources_eq (results : List SearchResult) :
    ∀ acc : List SourceInfo,
      collectSources results acc = acc ++ keepFirstFrom acc (sourceCandidates results) := by
  induction results with
  | nil => intro acc; simp [collectSources, sourceCandidates, keepFirstFrom]
  | cons r rest ih =>
    intro acc
    by_cases hc : sourceCond r
    · by_cases hm : mkSourceInfo r ∈ acc
      · rw [collectSources, if_pos hc, if_pos hm, ih]
        rw [sourceCandidates_cons, if_pos hc, keepFirstFrom, if_pos hm]
      · rw [collectSources, if_pos hc, if_neg hm, ih]
        rw [sourceCandidates_cons, if_pos hc, keepFirstFrom, if_neg hm]
        simp
    · rw [collectSources, if_neg hc, ih]
      rw [sourceCandidates_cons, if_neg hc]

theorem keepFirstFrom_nodup {α : Type} [DecidableEq α] (l : List α) :
    ∀ seen : List α,
      (keepFirstFrom seen l).Nodup ∧ ∀ x ∈ keepFirstFrom seen l, x ∉ seen := by
  induction l with
  | nil => intro seen; simp [keepFirstFrom]
  | cons s rest ih =>
    intro seen
    by_cases hm : s ∈ seen
    · rw [keepFirstFrom, if_pos hm]; exact ih seen
    · rw [keepFirstFrom, if_neg hm]
      obtain ⟨hnd, hns⟩ := ih (seen ++ [s])
      refine ⟨List.nodup_cons.2 ⟨fun hx => ?_, hnd⟩, ?_⟩
      · exact hns s hx (List.mem_append_right seen (List.mem_singleton_self s))
      · intro x hx
        rcases List.mem_cons.1 hx with h | h
        · exact h ▸ hm
        · exact fun hxs => hns x h (List.mem_append_left _ hxs)

theorem keepFirstFrom_sublist {α : Type} [DecidableEq α] (l : List α) :
    ∀ seen : List α, (keepFirstFrom seen l).Sublist l := by
  induction l with
  | nil => intro seen; simp [keepFirstFrom]
  | cons s rest ih =>
    intro seen
    by_cases hm : s ∈ seen
    · rw [keepFirstFrom, if_pos hm]
      exact (ih seen).trans (List.sublist_cons_self s rest)
    · rw [keepFirstFrom, if_neg hm]
      exact (ih (seen ++ [s])).cons₂ s

/-- C4: the citations list produced by `search` contains no two entries
that are field-wise equal on (document, url, chunk_index, page_number): it
is exactly the first-occurrence deduplication of the candidate citations,
hence a sublist of them (first-occurrence order preserved), and composing
two identical results yields exactly one citation. -/
theorem C4_citation_dedup (results : List SearchResult) (r : SearchResult) :
    (searchSources results).Nodup
    ∧ searchSources results = keepFirst (sourceCandidates results)
    ∧ (searchSources results).Sublist (sourceCandidates results)
    ∧ searchSources [r, r] = searchSources [r] := by
  have heq : searchSources results = keepFirst (sourceCandidates results) := by
    rw [searchSources, collectSources_eq, keepFirst]
    rfl
  refine ⟨?_, heq, ?_, ?_⟩
  · rw [heq, keepFirst]
    exact (keepFirstFrom_nodup (sourceCandidates results) []).1
  · rw [heq, keepFirst]
    exact keepFirstFrom_sublist (sourceCandidates results) []
  · by_cases hc : sourceCond r
    · simp [searchSources, collectSources, hc]
    · simp [searchSources, collectSources, hc]

/-- C5: an upload request rejected by validation — unsupported filename
extension, or extracted text that is empty/whitespace-only — yields HTTP
400 with an error message and performs no blob upload and no index write. -/
theorem C5_upload_validation_rejects_cleanly (filename : String)
    (extract : Except PyExn (String × (Nat → Option Nat)))
    (tok : Except Unit (List String)) (blobUpload : Except PyExn String)
    (indexUpload : Except PyExn Unit) (text : String) (m : Nat → Option Nat) :
    (is_supported filename = false →
      upload_document true filename extract tok blobUpload indexUpload
        = ⟨400, some ("Unsupported file format. Supported: "
            ++ String.intercalate ", " SUPPORTED_EXTENSIONS), []⟩)
    ∧ (is_supported filename = true → extract = .ok (text, m) → pyStrip text.data = [] →
      upload_document true filename extract tok blobUpload indexUpload
        = ⟨400, some "No text could be extracted from the document", []⟩) := by
  constructor
  · intro hunsup
    simp [upload_document, hunsup]
  · intro hsup hex htrim
    simp [upload_document, hsup, hex, htrim]

/-- C5 witness: a `.csv` upload and a whitespace-only extraction are both
rejected with 400 and an empty effect list. -/
theorem C5_upload_validation_rejects_cleanly_witness :
    upload_document true "data.csv" (.ok ("x", fun _ => none)) (.ok []) (.ok "u") (.ok ())
      = ⟨400, some ("Unsupported file format. Supported: "
          ++ String.intercalate ", " SUPPORTED_EXTENSIONS), []⟩
    ∧ upload_document true "doc.pdf" (.ok ("   ", fun _ => none)) (.ok []) (.ok "u") (.ok ())
      = ⟨400, some "No text could be extracted from the document", []⟩ :=
  ⟨(C5_upload_validation_rejects_cleanly "data.csv" (.ok ("x", fun _ => none))
      (.ok []) (.ok "u") (.ok ()) "x" (fun _ => none)).1 (by decide),
   (C5_upload_validation_rejects_cleanly "doc.pdf" (.ok ("   ", fun _ => none))
      (.ok []) (.ok "u") (.ok ()) "   " (fun _ => none)).2 (by decide) rfl (by decide)⟩

theorem response_stream_ok_shape
    (sp : Option (Except PyError (String × List SourceInfo)))
    (sign : Option (String → Option String)) (gen : GenOutcome)
    (h : ∀ e, sp ≠ some (.error e)) :
    ∃ c srcs, response_stream sp sign gen
      = .ok ((deltaContents gen.events).map SSEEvent.message
          ++ [SSEEvent.completedMessage c srcs, SSEEvent.streamEnd]) := by
  match sp, h with
  | none, _ =>
    cases hf : gen.failure with
    | none =>
      refine ⟨String.join (deltaContents gen.events), some [], ?_⟩
      simp [response_stream, hf]
    | some e =>
      refine ⟨errorResponseText e, none, ?_⟩
      simp [response_stream, hf]
  | some (.ok (ctx, srcs)), _ =>
    cases hf : gen.failure with
    | none =>
      refine ⟨String.join (deltaContents gen.events), some ?_, ?_⟩
      · exact
          match sign with
          | some sg => if srcs = [] then srcs else signSources sg srcs
          | none => srcs
      · cases sign <;> simp [response_stream, hf]
    | some e =>
      refine ⟨errorResponseText e, none, ?_⟩
      cases sign <;> simp [response_stream, hf]
  | some (.error e), h => exact absurd rfl (h e)

/-- C1 (amended): whenever the retrieval phase does not raise — the search
manager is absent, or its `search` call returns — the event stream of the
`/chat` handler is exactly zero or more `message` events in generation
order, then exactly one `completed_message`, then exactly one
`stream_end`, and any failure of the model-generation phase is converted
into this terminal sequence.  (A retrieval-phase exception, by contrast,
propagates out of the stream: see the counterexample.) -/
theorem C1_chat_stream_terminal_amended
    (sp : Option (Except PyError (String × List SourceInfo)))
    (sign : Option (String → Option String)) (gen : GenOutcome)
    (h : ∀ e, sp ≠ some (.error e)) :
    ∃ c srcs, response_stream sp sign gen
      = .ok ((deltaContents gen.events).map SSEEvent.message
          ++ [SSEEvent.completedMessage c srcs, SSEEvent.streamEnd]) :=
  response_stream_ok_shape sp sign gen h

/-- C1 witness: concrete run with two generated tokens and a model failure
afterwards still yields messages, one completed message and a stream end. -/
theorem C1_chat_stream_terminal_amended_witness :
    ∃ c srcs,
      response_stream (some (.ok ("ctx", [⟨"d", "u", 0, none⟩]))) none
          ⟨[⟨[⟨some "Hel"⟩]⟩, ⟨[⟨some "lo"⟩]⟩], some ⟨"boom", none⟩⟩
        = .ok ((deltaContents [⟨[⟨some "Hel"⟩]⟩, ⟨[⟨some "lo"⟩]⟩]).map SSEEvent.message
            ++ [SSEEvent.completedMessage c srcs, SSEEvent.streamEnd]) :=
  C1_chat_stream_terminal_amended (some (.ok ("ctx", [⟨"d", "u", 0, none⟩]))) none
    ⟨[⟨[⟨some "Hel"⟩]⟩, ⟨[⟨some "lo"⟩]⟩], some ⟨"boom", none⟩⟩ (by simp)

/-- C1 counterexample: a failure of the retrieval phase (the
`search_index_manager.search` call sits outside the handler's `try`
block) makes the stream raise instead of emitting the terminal event
sequence, so the claim that every failure path is converted and no
exception reaches the transport layer is false as stated. -/
theorem C1_search_failure_propagates_cex :
    response_stream (some (.error ⟨"boom", none⟩)) none ⟨[], none⟩
      = .error ⟨"boom", none⟩
    ∧ (response_stream (some (.error ⟨"boom", none⟩)) none ⟨[], none⟩).isOk = false :=
  ⟨rfl, rfl⟩

/-- C3 (amended): signing failures are isolated per citation, but a failed
citation keeps its previous, original (unsigned) URL rather than having
its URL unset: the citation whose blob-name signing fails is returned
unchanged, every citation whose signing succeeds gets the fresh signed URL
with a page anchor when its page number is known, and the response still
completes with the terminal stream events. -/
theorem C3_signing_isolation_amended (sign : String → Option String)
    (sources : List SourceInfo) (i j : Nat)
    (hi : i < sources.length) (hj : j < sources.length) (u : String)
    (hfail : sign (blobNameOfUrl sources[i].url) = none)
    (hjurl : sources[j].url ≠ "")
    (hsig : sign (blobNameOfUrl sources[j].url) = some u) :
    (signSources sign sources)[i]? = some sources[i]
    ∧ (signSources sign sources)[j]?
      = some { sources[j] with url := u ++ pageAnchor sources[j].page_number }
    ∧ ∀ (gen : GenOutcome) (ctx : String), ∃ c srcs,
        response_stream (some (.ok (ctx, sources))) (some sign) gen
          = .ok ((deltaContents gen.events).map SSEEvent.message
              ++ [SSEEvent.completedMessage c srcs, SSEEvent.streamEnd]) := by
  refine ⟨?_, ?_, ?_⟩
  · rw [signSources, List.getElem?_map, List.getElem?_eq_getElem hi]
    by_cases hurl : sources[i].url = ""
    · simp [hurl]
    · simp [hurl, hfail]
  · rw [signSources, List.getElem?_map, List.getElem?_eq_getElem hj]
    simp [hjurl, hsig]
  · intro gen ctx
    exact response_stream_ok_shape (some (.ok (ctx, sources))) (some sign) gen (by simp)

/-- C3 witness: with two citations and signing failing only for the
second, the first gets a fresh signed URL with page anchor, the second is
returned unchanged, and the stream still terminates normally. -/
theorem C3_signing_isolation_amended_witness :
    (signSources (fun b => if b = "b1.pdf" then some "SIGNED1" else none)
        [⟨"d1", "https://acc/docs/b1.pdf", 0, some 2⟩,
         ⟨"d2", "https://acc/docs/b2.pdf", 1, none⟩])[1]?
      = some ⟨"d2", "https://acc/docs/b2.pdf", 1, none⟩
    ∧ (signSources (fun b => if b = "b1.pdf" then some "SIGNED1" else none)
        [⟨"d1", "https://acc/docs/b1.pdf", 0, some 2⟩,
         ⟨"d2", "https://acc/docs/b2.pdf", 1, none⟩])[0]?
      = some ⟨"d1", "SIGNED1#page=2", 0, some 2⟩
    ∧ ∃ c srcs,
        response_stream
            (some (.ok ("ctx",
              [⟨"d1", "https://acc/docs/b1.pdf", 0, some 2⟩,
               ⟨"d2", "https://acc/docs/b2.pdf", 1, none⟩])))
            (some (fun b => if b = "b1.pdf" then some "SIGNED1" else none))
            ⟨[], none⟩
          = .ok ((deltaContents []).map SSEEvent.message
              ++ [SSEEvent.completedMessage c srcs, SSEEvent.streamEnd]) := by
  have h := C3_signing_isolation_amended
    (fun b => if b = "b1.pdf" then some "SIGNED1" else none)
    [⟨"d1", "https://acc/docs/b1.pdf", 0, some 2⟩,
     ⟨"d2", "https://acc/docs/b2.pdf", 1, none⟩] 1 0
    (by decide) (by decide) "SIGNED1" (by decide) (by decide) (by decide)
  exact ⟨h.1, h.2.1, h.2.2 ⟨[], none⟩ "ctx"⟩

/-- C3 counterexample: the claim that the failed citation's URL field is
left unset/empty is false — after the signing loop the failed citation
still carries its original, non-empty blob URL. -/
theorem C3_failed_signing_keeps_url_cex :
    (signSources (fun b => if b = "b1.pdf" then some "SIGNED1" else none)
        [⟨"d1", "https://acc/docs/b1.pdf", 0, some 2⟩,
         ⟨"d2", "https://acc/docs/b2.pdf", 1, none⟩]).map (fun s => s.url)
      = ["SIGNED1#page=2", "https://acc/docs/b2.pdf"] := by
  decide

theorem pyFind_some {text sub : List Char} {start s : Nat}
    (h : pyFind text sub start = some s) :
    start ≤ s ∧ sub.isPrefixOf (text.drop s) = true := by
  have hp := List.find?_some h
  rw [Bool.and_eq_true, decide_eq_true_iff] at hp
  exact hp

theorem chunkLoop_cons_skip (text : String) (m : Nat → Option Nat) (sents : List String)
    (spc i : Nat) (is : List Nat) (pos : Nat)
    (hskip : pyStrip (String.intercalate " " ((sents.drop i).take spc)).data = []) :
    chunkLoop text m sents spc (i :: is) pos = chunkLoop text m sents spc is pos := by
  simp only [chunkLoop]
  rw [if_pos hskip]

theorem chunkLoop_cons_found (text : String) (m : Nat → Option Nat) (sents : List String)
    (spc i : Nat) (is : List Nat) (pos s : Nat)
    (hskip : ¬ pyStrip (String.intercalate " " ((sents.drop i).take spc)).data = [])
    (hfind : pyFind text.data (String.intercalate " " ((sents.drop i).take spc)).data pos
      = some s) :
    chunkLoop text m sents spc (i :: is) pos
      = ⟨String.intercalate " " ((sents.drop i).take spc), m s⟩ ::
        chunkLoop text m sents spc is
          (s + (String.intercalate " " ((sents.drop i).take spc)).length) := by
  simp only [chunkLoop]
  rw [if_neg hskip, hfind]

theorem chunkLoop_cons_missed (text : String) (m : Nat → Option Nat) (sents : List String)
    (spc i : Nat) (is : List Nat) (pos : Nat)
    (hskip : ¬ pyStrip (String.intercalate " " ((sents.drop i).take spc)).data = [])
    (hfind : pyFind text.data (String.intercalate " " ((sents.drop i).take spc)).data pos
      = none) :
    chunkLoop text m sents spc (i :: is) pos
      = ⟨String.intercalate " " ((sents.drop i).take spc), none⟩ ::
        chunkLoop text m sents spc is
          ((String.intercalate " " ((sents.drop i).take spc)).length - 1) := by
  simp only [chunkLoop]
  rw [if_neg hskip, hfind]

theorem chunkAllFound_cons_skip (text : String) (sents : List String)
    (spc i : Nat) (is : List Nat) (pos : Nat)
    (hskip : pyStrip (String.intercalate " " ((sents.drop i).take spc)).data = []) :
    chunkAllFound text sents spc (i :: is) pos = chunkAllFound text sents spc is pos := by
  simp only [chunkAllFound]
  rw [if_pos hskip]

theorem chunkAllFound_cons_found (text : String) (sents : List String)
    (spc i : Nat) (is : List Nat) (pos s : Nat)
    (hskip : ¬ pyStrip (String.intercalate " " ((sents.drop i).take spc)).data = [])
    (hfind : pyFind text.data (String.intercalate " " ((sents.drop i).take spc)).data pos
      = some s) :
    chunkAllFound text sents spc (i :: is) pos
      = chunkAllFound text sents spc is
          (s + (String.intercalate " " ((sents.drop i).take spc)).length) := by
  simp only [chunkAllFound]
  rw [if_neg hskip, hfind]

theorem chunkAllFound_cons_missed (text : String) (sents : List String)
    (spc i : Nat) (is : List Nat) (pos : Nat)
    (hskip : ¬ pyStrip (String.intercalate " " ((sents.drop i).take spc)).data = [])
    (hfind : pyFind text.data (String.intercalate " " ((sents.drop i).take spc)).data pos
      = none) :
    chunkAllFound text sents spc (i :: is) pos = false := by
  simp only [chunkAllFound]
  rw [if_neg hskip, hfind]

theorem chunkLoop_page_occurs (text : String) (m : Nat → Option Nat)
    (sents : List String) (spc : Nat) :
    ∀ (idxs : List Nat) (pos : Nat) (c : PyChunk),
      c ∈ chunkLoop text m sents spc idxs pos →
      ∀ p, c.page_number = some p →
        ∃ s, c.text.data.isPrefixOf (text.data.drop s) = true ∧ m s = some p := by
  intro idxs
  induction idxs with
  | nil =>
    intro pos c hc
    simp [chunkLoop] at hc
  | cons i is ih =>
    intro pos c hc p hp
    by_cases hskip : pyStrip (String.intercalate " " ((sents.drop i).take spc)).data = []
    · rw [chunkLoop_cons_skip text m sents spc i is pos hskip] at hc
      exact ih pos c hc p hp
    · cases hfind : pyFind text.data (String.intercalate " " ((sents.drop i).take spc)).data pos with
      | some s =>
        rw [chunkLoop_cons_found text m sents spc i is pos s hskip hfind] at hc
        rcases List.mem_cons.1 hc with h1 | h2
        · subst h1
          simp only at hp
          exact ⟨s, (pyFind_some hfind).2, hp ▸ rfl⟩
        · exact ih _ c h2 p hp
      | none =>
        rw [chunkLoop_cons_missed text m sents spc i is pos hskip hfind] at hc
        rcases List.mem_cons.1 hc with h1 | h2
        · subst h1
          simp at hp
        · exact ih _ c h2 p hp

theorem chunkLoop_pages_chain (text : String) (m : Nat → Option Nat)
    (sents : List String) (spc : Nat) (hm : MapMono m) :
    ∀ (idxs : List Nat) (pos : Nat), chunkAllFound text sents spc idxs pos = true →
      List.Chain' (· ≤ ·)
        ((chunkLoop text m sents spc idxs pos).filterMap (fun c => c.page_number))
      ∧ ∀ p ∈ (chunkLoop text m sents spc idxs pos).filterMap (fun c => c.page_number),
          ∃ s, pos ≤ s ∧ m s = some p := by
  intro idxs
  induction idxs with
  | nil =>
    intro pos _
    simp [chunkLoop]
  | cons i is ih =>
    intro pos haf
    by_cases hskip : pyStrip (String.intercalate " " ((sents.drop i).take spc)).data = []
    · rw [chunkAllFound_cons_skip text sents spc i is pos hskip] at haf
      rw [chunkLoop_cons_skip text m sents spc i is pos hskip]
      exact ih pos haf
    · cases hfind : pyFind text.data (String.intercalate " " ((sents.drop i).take spc)).data pos with
      | none =>
        rw [chunkAllFound_cons_missed text sents spc i is pos hskip hfind] at haf
        exact absurd haf (by simp)
      | some s =>
        rw [chunkAllFound_cons_found text sents spc i is pos s hskip hfind] at haf
        rw [chunkLoop_cons_found text m sents spc i is pos s hskip hfind]
        obtain ⟨hs_ge, _⟩ := pyFind_some hfind
        obtain ⟨ihchain, ihbound⟩ :=
          ih (s + (String.intercalate " " ((sents.drop i).take spc)).length) haf
        rw [List.filterMap_cons]
        cases hms : m s with
        | none =>
          simp only
          refine ⟨ihchain, ?_⟩
          intro p hp
          obtain ⟨s', hs', hm'⟩ := ihbound p hp
          exact ⟨s', by omega, hm'⟩
        | some p0 =>
          simp only
          constructor
          · rw [List.chain'_cons']
            refine ⟨?_, ihchain⟩
            intro b hb
            obtain ⟨s', hs', hm'⟩ := ihbound b (List.mem_of_mem_head? hb)
            exact hm s s' p0 b (by omega) hms hm'
          · intro p hp
            rcases List.mem_cons.1 hp with h | h
            · exact ⟨s, hs_ge, h ▸ hms⟩
            · obtain ⟨s', hs', hm'⟩ := ihbound p h
              exact ⟨s', by omega, hm'⟩

/-- C2 (amended): provided the offset-to-page map is monotone (larger
offsets never map to smaller pages, as the PDF extractor produces) and
every emitted chunk's text is found by the forward search at or after the
running position, the non-`None` page numbers across the emitted chunks
are non-decreasing in chunk order; and — unconditionally — every
non-`None` page number is the map's value at an offset at which the
chunk's exact text occurs in the original text. -/
theorem C2_page_attribution_amended (text : String) (m : Nat → Option Nat)
    (sentences : List String) (spc : Nat) :
    (MapMono m →
      chunkAllFound text sentences spc (pyRange0 sentences.length spc) 0 = true →
      List.Chain' (· ≤ ·)
        ((chunk_text (.ok sentences) text m spc).filterMap (fun c => c.page_number)))
    ∧ ∀ c ∈ chunk_text (.ok sentences) text m spc, ∀ p, c.page_number = some p →
        ∃ s, c.text.data.isPrefixOf (text.data.drop s) = true ∧ m s = some p := by
  constructor
  · intro hm hfound
    exact (chunkLoop_pages_chain text m sentences spc hm
      (pyRange0 sentences.length spc) 0 hfound).1
  · intro c hc p hp
    exact chunkLoop_page_occurs text m sentences spc
      (pyRange0 sentences.length spc) 0 c hc p hp

/-- C2 witness: a four-sentence text chunked two sentences at a time under
a monotone map has non-decreasing page numbers and correct attribution. -/
theorem C2_page_attribution_amended_witness :
    List.Chain' (· ≤ ·)
      ((chunk_text (.ok ["A.", "B.", "C.", "D."]) "A. B. C. D."
          (fun n => if n < 6 then some 1 else some 2) 2).filterMap (fun c => c.page_number))
    ∧ ∀ c ∈ chunk_text (.ok ["A.", "B.", "C.", "D."]) "A. B. C. D."
          (fun n => if n < 6 then some 1 else some 2) 2,
        ∀ p, c.page_number = some p →
          ∃ s, c.text.data.isPrefixOf ("A. B. C. D.".data.drop s) = true
            ∧ (fun n => if n < 6 then some 1 else some 2) s = some p :=
  ⟨(C2_page_attribution_amended "A. B. C. D." (fun n => if n < 6 then some 1 else some 2)
      ["A.", "B.", "C.", "D."] 2).1
    (by
      intro i j pi pj hij hi hj
      by_cases h6i : i < 6 <;> by_cases h6j : j < 6 <;>
        simp [h6i, h6j] at hi hj <;> omega)
    (by decide),
   (C2_page_attribution_amended "A. B. C. D." (fun n => if n < 6 then some 1 else some 2)
      ["A.", "B.", "C.", "D."] 2).2⟩

/-- C2 counterexample: as stated — for every input text and offset-to-page
map — the claim fails: when one chunk's text is not found (Python `find`
returns `-1`) the search position resets to `len(chunk) - 1`, moving
backward, and a later chunk can match an earlier offset, so the non-`None`
page numbers decrease even under a monotone map. -/
theorem C2_page_monotonicity_cex :
    chunk_text (.ok ["a.", "b.", "z"]) "zzzz a."
        (fun n => if n = 1 then some 1 else if n = 5 then some 2 else none) 1
      = [⟨"a.", some 2⟩, ⟨"b.", none⟩, ⟨"z", some 1⟩]
    ∧ ¬ List.Chain' (· ≤ ·)
        ((chunk_text (.ok ["a.", "b.", "z"]) "zzzz a."
            (fun n => if n = 1 then some 1 else if n = 5 then some 2 else none) 1).filterMap
          (fun c => c.page_number)) := by
  have h1 : chunk_text (.ok ["a.", "b.", "z"]) "zzzz a."
      (fun n => if n = 1 then some 1 else if n = 5 then some 2 else none) 1
      = [⟨"a.", some 2⟩, ⟨"b.", none⟩, ⟨"z", some 1⟩] := by decide
  refine ⟨h1, ?_⟩
  rw [h1]
  simp [List.chain'_cons]

theorem pdfWorker_cons_skip (t : String) (rest : List String) (pn pos : Nat)
    (h : pyStrip t.data = []) :
    pdfWorker (t :: rest) pn pos = pdfWorker rest (pn + 1) pos := by
  simp only [pdfWorker]
  rw [if_pos h]

theorem pdfWorker_cons_keep (t : String) (rest : List String) (pn pos : Nat)
    (h : ¬ pyStrip t.data = []) :
    pdfWorker (t :: rest) pn pos
      = (t :: (pdfWorker rest (pn + 1) (pos + t.length + 2)).1,
         fun i => if pos ≤ i ∧ i < pos + t.length then some pn
                  else (pdfWorker rest (pn + 1) (pos + t.length + 2)).2 i) := by
  simp only [pdfWorker]
  rw [if_neg h]

theorem pdfWorker_parts (pages : List String) :
    ∀ pn pos, (pdfWorker pages pn pos).1
      = pages.filter (fun t => !(pyStrip t.data == [])) := by
  induction pages with
  | nil => intro pn pos; simp [pdfWorker]
  | cons t rest ih =>
    intro pn pos
    by_cases h : pyStrip t.data = []
    · rw [pdfWorker_cons_skip t rest pn pos h, ih]
      rw [List.filter_cons]
      simp [h]
    · rw [pdfWorker_cons_keep t rest pn pos h]
      rw [List.filter_cons]
      simp [ih, h]

theorem pdfWorker_lb (pages : List String) :
    ∀ pn pos i q, (pdfWorker pages pn pos).2 i = some q → pn ≤ q := by
  induction pages with
  | nil =>
    intro pn pos i q h
    simp [pdfWorker] at h
  | cons t rest ih =>
    intro pn pos i q h
    by_cases hsk : pyStrip t.data = []
    · rw [pdfWorker_cons_skip t rest pn pos hsk] at h
      exact le_trans (by omega) (ih (pn + 1) pos i q h)
    · rw [pdfWorker_cons_keep t rest pn pos hsk] at h
      simp only at h
      by_cases hr : pos ≤ i ∧ i < pos + t.length
      · rw [if_pos hr] at h
        have := Option.some.inj h
        omega
      · rw [if_neg hr] at h
        exact le_trans (by omega) (ih (pn + 1) (pos + t.length + 2) i q h)

theorem pdfWorker_span (pages : List String) :
    ∀ pn pos j (hj : j < pages.length),
      ¬ pyStrip (pages.get ⟨j, hj⟩).data = [] →
      ∀ i, i < (pages.get ⟨j, hj⟩).length →
        (pdfWorker pages pn pos).2 (pos + spanStart pages j + i) = some (pn + j) := by
  induction pages with
  | nil =>
    intro pn pos j hj
    simp at hj
  | cons t rest ih =>
    intro pn pos j hj hne i hi
    cases j with
    | zero =>
      simp only [List.get] at hne hi
      rw [pdfWorker_cons_keep t rest pn pos hne]
      simp only [spanStart]
      rw [if_pos (by omega)]
      rfl
    | succ j =>
      simp only [List.get] at hne hi
      by_cases hsk : pyStrip t.data = []
      · rw [pdfWorker_cons_skip t rest pn pos hsk]
        have := ih (pn + 1) pos j (by simpa using hj) hne i hi
        rw [spanStart, if_pos hsk]
        simpa [Nat.add_assoc, Nat.add_comm, Nat.add_left_comm] using this
      · rw [pdfWorker_cons_keep t rest pn pos hsk]
        simp only
        rw [if_neg (by rw [spanStart, if_neg hsk]; omega)]
        have := ih (pn + 1) (pos + t.length + 2) j (by simpa using hj) hne i hi
        rw [spanStart, if_neg hsk]
        have harg : pos + (t.length + 2 + spanStart rest j) + i
            = pos + t.length + 2 + spanStart rest j + i := by omega
        rw [harg]
        simpa [Nat.add_assoc, Nat.add_comm, Nat.add_left_comm] using this

theorem pdfWorker_skip_unmapped (pages : List String) :
    ∀ pn pos j (hj : j < pages.length),
      pyStrip (pages.get ⟨j, hj⟩).data = [] →
      ∀ i, (pdfWorker pages pn pos).2 i ≠ some (pn + j) := by
  induction pages with
  | nil =>
    intro pn pos j hj
    simp at hj
  | cons t rest ih =>
    intro pn pos j hj hsk i h
    cases j with
    | zero =>
      simp only [List.get] at hsk
      rw [pdfWorker_cons_skip t rest pn pos hsk] at h
      have := pdfWorker_lb rest (pn + 1) pos i (pn + 0) h
      omega
    | succ j =>
      simp only [List.get] at hsk
      by_cases hskt : pyStrip t.data = []
      · rw [pdfWorker_cons_skip t rest pn pos hskt] at h
        exact ih (pn + 1) pos j (by simpa using hj) hsk i (by
          rw [show pn + 1 + j = pn + (j + 1) by omega]
          exact h)
      · rw [pdfWorker_cons_keep t rest pn pos hskt] at h
        simp only at h
        by_cases hr : pos ≤ i ∧ i < pos + t.length
        · rw [if_pos hr] at h
          have : pn = pn + (j + 1) := by
            have := Option.some.inj h
            omega
          omega
        · rw [if_neg hr] at h
          exact ih (pn + 1) (pos + t.length + 2) j (by simpa using hj) hsk i (by
            rw [show pn + 1 + j = pn + (j + 1) by omega]
            exact h)

/-- C6: the PDF extractor returns the non-blank pages' texts joined by the
two-character separator; pages whose extracted text is empty or
all-whitespace contribute no text and no offsets (no offset is mapped to
their 1-based number); and the offset-to-page map sends every character
offset inside a retained page's text span to that page's 1-based number. -/
theorem C6_pdf_extraction_spans (pages : List String) :
    (extract_from_pdf pages).1
      = String.intercalate "\n\n" (pages.filter (fun t => !(pyStrip t.data == [])))
    ∧ (∀ j (hj : j < pages.length), ¬ pyStrip (pages.get ⟨j, hj⟩).data = [] →
        ∀ i, i < (pages.get ⟨j, hj⟩).length →
          (extract_from_pdf pages).2 (spanStart pages j + i) = some (j + 1))
    ∧ (∀ j (hj : j < pages.length), pyStrip (pages.get ⟨j, hj⟩).data = [] →
        ∀ i, (extract_from_pdf pages).2 i ≠ some (j + 1)) := by
  refine ⟨?_, ?_, ?_⟩
  · show String.intercalate "\n\n" (pdfWorker pages 1 0).1 = _
    rw [pdfWorker_parts]
  · intro j hj hne i hi
    have := pdfWorker_span pages 1 0 j hj hne i hi
    show (pdfWorker pages 1 0).2 (spanStart pages j + i) = some (j + 1)
    rw [show spanStart pages j + i = 0 + spanStart pages j + i by omega]
    rw [this, Nat.add_comm 1 j]
  · intro j hj hsk i
    have := pdfWorker_skip_unmapped pages 1 0 j hj hsk i
    show (pdfWorker pages 1 0).2 i ≠ some (j + 1)
    rw [show j + 1 = 1 + j by omega]
    exact this

/-- C6 witness on `["A", "  ", "Bc"]`: the joined text is "A\n\nBc", the
offset 1 into page 3's span maps to page 3, and no offset maps to the
skipped page 2. -/
theorem C6_pdf_extraction_spans_witness :
    (extract_from_pdf ["A", "  ", "Bc"]).1
      = String.intercalate "\n\n" (["A", "  ", "Bc"].filter (fun t => !(pyStrip t.data == [])))
    ∧ (extract_from_pdf ["A", "  ", "Bc"]).2 (spanStart ["A", "  ", "Bc"] 2 + 1) = some 3
    ∧ (extract_from_pdf ["A", "  ", "Bc"]).2 0 ≠ some 2 :=
  ⟨(C6_pdf_extraction_spans ["A", "  ", "Bc"]).1,
   (C6_pdf_extraction_spans ["A", "  ", "Bc"]).2.1 2 (by decide) (by decide) 1 (by decide),
   (C6_pdf_extraction_spans ["A", "  ", "Bc"]).2.2 1 (by decide) (by decide) 0⟩

end RagDemo
